import Mathlib

/-!
Shallow embedding of the hypescreener backend (src/index.js together with
the companion WebSocket variant).  JavaScript numbers are modelled as exact
rationals, scores as integers, randomness as explicit parameters (one draw
per `Math.random()` call site), and provider I/O as explicit inputs that
describe the outcome of each network call.
-/

namespace HypeScreener

/-- JS `parseInt` restricted to the strings the code feeds it (age strings
such as "5h", "-1h", "NaNh", "N/A"): skip leading spaces, read an optional
sign and then a maximal run of decimal digits; `none` models `NaN` (no
leading digits, as for "N/A"). -/
def jsParseInt (s : String) : Option ℤ :=
  let cs := s.data.dropWhile (fun c => c = ' ')
  let signed : ℤ × List Char :=
    match cs with
    | '-' :: rest => (-1, rest)
    | '+' :: rest => (1, rest)
    | _ => (1, cs)
  let ds := signed.2.takeWhile Char.isDigit
  if ds.isEmpty then none
  else some (signed.1 * ds.foldl (fun a c => 10 * a + ((c.toNat : ℤ) - 48)) 0)

/-- The token record.  Fields that some construction sites leave
`undefined` in JS are carried here with the defaults `""`, `0`, `[]`,
`false`; every operation the code performs on such a field (`> n`,
truthiness, overwriting) gives the same answer for `undefined` and for
these defaults. -/
structure Token where
  name : String
  symbol : String
  address : String
  age : String
  marketCap : ℚ
  volume : ℚ
  liquidity : ℚ
  price : ℚ
  priceChange : ℚ
  holders : ℕ
  hypeScore : ℤ
  xMentions : ℤ
  chartData : List ℚ
  sponsored : Bool
deriving DecidableEq

/-- The JS statement `if (cond) score += bonus`. -/
def addIf (cond : Prop) [Decidable cond] (bonus score : ℤ) : ℤ :=
  if cond then score + bonus else score

/-- `calculateHypeScore` from src/index.js lines 228-244.  `r` is the value
of the draw `Math.floor(Math.random() * 15)` (an integer in `[0, 15)` on a
real run).  Each `addIf` is one `if (...) score += ...;` statement of the
source, applied in source order, and the result is `Math.min(score, 95)`. -/
def calculateHypeScore (r : ℤ) (token : Token) : ℤ :=
  let base : ℤ := 60 + r
  let afterAge :=
    match jsParseInt token.age with
    | none => base
    | some ageHours => addIf (ageHours < 6) 5 (addIf (ageHours < 3) 10 base)
  let marketCapMillions := token.marketCap / 1000000
  let s1 := addIf (marketCapMillions > 0.1) 5 afterAge
  let s2 := addIf (marketCapMillions > 0.5) 5 s1
  let s3 := addIf (token.volume > 5000) 5 s2
  let s4 := addIf (token.volume > 20000) 5 s3
  let s5 := addIf (token.priceChange > 10) 5 s4
  let s6 := addIf (token.priceChange > 50) 5 s5
  min s6 95

/-- Total bonus contributed by the `ageHours` branch of
`calculateHypeScore`. -/
def ageBonus (age : String) : ℤ :=
  match jsParseInt age with
  | none => 0
  | some ageHours => (if ageHours < 3 then 10 else 0) + (if ageHours < 6 then 5 else 0)

/-- Total bonus contributed by the market-cap tests of
`calculateHypeScore`. -/
def marketCapBonus (marketCap : ℚ) : ℤ :=
  (if marketCap / 1000000 > 0.1 then 5 else 0) + (if marketCap / 1000000 > 0.5 then 5 else 0)

/-- Total bonus contributed by the volume tests of `calculateHypeScore`. -/
def volumeBonus (volume : ℚ) : ℤ :=
  (if volume > 5000 then 5 else 0) + (if volume > 20000 then 5 else 0)

/-- Total bonus contributed by the price-change tests of
`calculateHypeScore`. -/
def priceChangeBonus (priceChange : ℚ) : ℤ :=
  (if priceChange > 10 then 5 else 0) + (if priceChange > 50 then 5 else 0)

lemma addIf_eq (cond : Prop) [Decidable cond] (bonus score : ℤ) :
    addIf cond bonus score = score + (if cond then bonus else 0) := by
  unfold addIf; split_ifs <;> omega

/-- The sequential conditional additions of `calculateHypeScore` amount to
the clamped sum of the base and the four independent bonus groups. -/
lemma calculateHypeScore_eq (r : ℤ) (t : Token) :
    calculateHypeScore r t =
      min (60 + r + ageBonus t.age + marketCapBonus t.marketCap
        + volumeBonus t.volume + priceChangeBonus t.priceChange) 95 := by
  simp only [calculateHypeScore, addIf_eq, ageBonus, marketCapBonus, volumeBonus,
    priceChangeBonus]
  cases h : jsParseInt t.age <;> simp only [h] <;>
    refine congrArg (fun x => min x 95) ?_ <;> ring

lemma ageBonus_nonneg (age : String) : 0 ≤ ageBonus age := by
  unfold ageBonus
  cases jsParseInt age
  · exact le_refl 0
  · dsimp only; split_ifs <;> omega

lemma ageBonus_le (age : String) : ageBonus age ≤ 15 := by
  unfold ageBonus
  cases jsParseInt age
  · dsimp only; omega
  · dsimp only; split_ifs <;> omega

lemma marketCapBonus_nonneg (x : ℚ) : 0 ≤ marketCapBonus x := by
  unfold marketCapBonus; split_ifs <;> omega

lemma volumeBonus_nonneg (x : ℚ) : 0 ≤ volumeBonus x := by
  unfold volumeBonus; split_ifs <;> omega

lemma priceChangeBonus_nonneg (x : ℚ) : 0 ≤ priceChangeBonus x := by
  unfold priceChangeBonus; split_ifs <;> omega

/-- C1: for every token record and every outcome of the random base draw
(an integer in `[0, 15)`), the score returned by `calculateHypeScore` is
an integer with `60 ≤ score ≤ 95`: the base is 60 plus the draw, every
bonus only adds, and the result is clamped above at 95. -/
theorem calculateHypeScore_range (r : ℤ) (t : Token) (hr0 : 0 ≤ r) (hr : r < 15) :
    60 ≤ calculateHypeScore r t ∧ calculateHypeScore r t ≤ 95 := by
  rw [calculateHypeScore_eq]
  have h1 := ageBonus_nonneg t.age
  have h2 := marketCapBonus_nonneg t.marketCap
  have h3 := volumeBonus_nonneg t.volume
  have h4 := priceChangeBonus_nonneg t.priceChange
  constructor
  · exact le_min (by omega) (by omega)
  · exact min_le_right _ _

/-- A token with no market data, as built by the discovery mapping step
with the sentinel age of a manual listing. -/
def blankToken : Token :=
  { name := "T", symbol := "", address := "addr", age := "N/A", marketCap := 0,
    volume := 0, liquidity := 0, price := 0, priceChange := 0, holders := 0,
    hypeScore := 0, xMentions := 0, chartData := [], sponsored := false }

theorem calculateHypeScore_range_witness :
    60 ≤ calculateHypeScore 0 blankToken ∧ calculateHypeScore 0 blankToken ≤ 95 :=
  calculateHypeScore_range 0 blankToken (by decide) (by decide)

/-- C3: `calculateHypeScore` adds 5 to the score when the token's
`priceChange` is greater than 10 and 5 more when it is greater than 50,
additively alongside the age, market-cap and volume bonuses (all inside
the final clamp at 95). -/
theorem calculateHypeScore_priceChange_additive (r : ℤ) (t : Token) :
    calculateHypeScore r t =
      min (60 + r + ageBonus t.age + marketCapBonus t.marketCap + volumeBonus t.volume
        + ((if t.priceChange > 10 then (5 : ℤ) else 0)
          + (if t.priceChange > 50 then (5 : ℤ) else 0))) 95 :=
  calculateHypeScore_eq r t

/-- A token young (2h) and rich enough that every market bonus fires. -/
def richYoungToken : Token :=
  { blankToken with age := "2h", marketCap := 1000000, volume := 25000, priceChange := 60 }

/-- The same token aged to 6h. -/
def richOldToken : Token := { richYoungToken with age := "6h" }

lemma ageBonus_of_young {age : String} {a : ℤ} (h : jsParseInt age = some a) (ha : a < 3) :
    ageBonus age = 15 := by
  unfold ageBonus; rw [h]; dsimp only
  rw [if_pos ha, if_pos (by omega)]; decide

lemma ageBonus_of_old {age : String} {a : ℤ} (h : jsParseInt age = some a) (ha : 6 ≤ a) :
    ageBonus age = 0 := by
  unfold ageBonus; rw [h]; dsimp only
  rw [if_neg (by omega), if_neg (by omega)]; decide

/-- C6, counterexample: with the base draw pinned at 14, a token aged 2h and
an otherwise identical token aged 6h both reach the 95 clamp when market
cap, volume and price change are all high, so the younger one's final
`hypeScore` is not exactly 15 higher. -/
theorem calculateHypeScore_age_differential_cex :
    jsParseInt richYoungToken.age = some 2 ∧ jsParseInt richOldToken.age = some 6 ∧
    richYoungToken.marketCap = richOldToken.marketCap ∧
    richYoungToken.volume = richOldToken.volume ∧
    richYoungToken.priceChange = richOldToken.priceChange ∧
    calculateHypeScore 14 richYoungToken ≠ calculateHypeScore 14 richOldToken + 15 := by
  refine ⟨by decide, by decide, rfl, rfl, rfl, ?_⟩
  rw [calculateHypeScore_eq, calculateHypeScore_eq]
  rw [ageBonus_of_young (a := 2) (by decide) (by decide),
    ageBonus_of_old (a := 6) (by decide) (by decide)]
  have hmc : marketCapBonus richYoungToken.marketCap = 10 := by
    norm_num [marketCapBonus, richYoungToken, blankToken]
  have hv : volumeBonus richYoungToken.volume = 10 := by
    norm_num [volumeBonus, richYoungToken, blankToken]
  have hpc : priceChangeBonus richYoungToken.priceChange = 10 := by
    norm_num [priceChangeBonus, richYoungToken, blankToken]
  have heq : richOldToken.marketCap = richYoungToken.marketCap ∧
      richOldToken.volume = richYoungToken.volume ∧
      richOldToken.priceChange = richYoungToken.priceChange := ⟨rfl, rfl, rfl⟩
  rw [heq.1, heq.2.1, heq.2.2, hmc, hv, hpc]
  omega

/-- C6, amended: for every pair of tokens agreeing on all market attributes
and on the pinned random base draw, if the older token's score stays at or
below 80 (so the clamp at 95 cannot bind), the token whose age parses to a
value below 3 hours scores exactly 15 more (the +10 and +5 age bonuses
both apply) than the otherwise identical token whose age is at least
6 hours. -/
theorem calculateHypeScore_age_differential (r : ℤ) (t1 t2 : Token)
    (hmc : t1.marketCap = t2.marketCap) (hv : t1.volume = t2.volume)
    (hpc : t1.priceChange = t2.priceChange)
    (a1 a2 : ℤ) (h1 : jsParseInt t1.age = some a1) (ha1 : a1 < 3)
    (h2 : jsParseInt t2.age = some a2) (ha2 : 6 ≤ a2)
    (hcap : calculateHypeScore r t2 ≤ 80) :
    calculateHypeScore r t1 = calculateHypeScore r t2 + 15 := by
  rw [calculateHypeScore_eq, calculateHypeScore_eq, hmc, hv, hpc,
    ageBonus_of_young h1 ha1, ageBonus_of_old h2 ha2] at *
  omega

/-- A token aged 2h with no market data. -/
def youngBlankToken : Token := { blankToken with age := "2h" }

/-- A token aged 7h with no market data. -/
def oldBlankToken : Token := { blankToken with age := "7h" }

theorem calculateHypeScore_age_differential_witness :
    calculateHypeScore 0 youngBlankToken = calculateHypeScore 0 oldBlankToken + 15 :=
  calculateHypeScore_age_differential 0 youngBlankToken oldBlankToken rfl rfl rfl
    2 7 (by decide) (by decide) (by decide) (by decide)
    (by
      rw [calculateHypeScore_eq, ageBonus_of_old (a := 7) (by decide) (by decide)]
      have h1 : marketCapBonus oldBlankToken.marketCap = 0 := by
        norm_num [marketCapBonus, oldBlankToken, blankToken]
      have h2 : volumeBonus oldBlankToken.volume = 0 := by
        norm_num [volumeBonus, oldBlankToken, blankToken]
      have h3 : priceChangeBonus oldBlankToken.priceChange = 0 := by
        norm_num [priceChangeBonus, oldBlankToken, blankToken]
      rw [h1, h2, h3]; omega)

/-- `generateChartData` from src/index.js lines 253-276.  `noise i` is the
value of the `Math.random()` call at point `i` (in `[0, 1)` on a real run).
The source's `token.priceChange || 0` is the identity here because a falsy
numeric `priceChange` is already `0` in this model. -/
def generateChartData (noise : ℕ → ℚ) (token : Token) : List ℚ :=
  let priceChange := token.priceChange
  let points : ℕ := 11
  if priceChange ≥ 0 then
    (List.range points).map (fun (i : ℕ) =>
      let progress : ℚ := (i : ℚ) / ((points : ℚ) - 1)
      let randomVariation := noise i * 0.3 - 0.1
      10 + progress * priceChange * 0.5 + randomVariation * progress * priceChange)
  else
    (List.range points).map (fun (i : ℕ) =>
      let progress : ℚ := (i : ℚ) / ((points : ℚ) - 1)
      let randomVariation := noise i * 0.3 - 0.1
      30 - progress * |priceChange| * 0.5 + randomVariation * progress * |priceChange|)

/-- C9: `generateChartData` always returns exactly 11 points, and when the
token's `priceChange` is 0 every point equals the baseline 10 (the trend
and noise terms both carry a factor of `priceChange`), so there is no
systematic trend. -/
theorem generateChartData_shape (noise : ℕ → ℚ) (t : Token) :
    (generateChartData noise t).length = 11 ∧
    (t.priceChange = 0 → ∀ x ∈ generateChartData noise t, x = 10) := by
  constructor
  · simp only [generateChartData]
    split_ifs <;> simp
  · intro h x hx
    simp only [generateChartData, h, ge_iff_le, le_refl, if_true, List.mem_map,
      List.mem_range] at hx
    obtain ⟨i, -, rfl⟩ := hx
    push_cast
    ring

theorem generateChartData_shape_witness :
    (generateChartData (fun _ => 0) blankToken).length = 11 ∧
    ∀ x ∈ generateChartData (fun _ => 0) blankToken, x = 10 :=
  ⟨(generateChartData_shape (fun _ => 0) blankToken).1,
    (generateChartData_shape (fun _ => 0) blankToken).2 rfl⟩

/-- C10: whatever the noise draws, the first point of `generateChartData`
is exactly 10 when `priceChange` is non-negative (or absent, i.e. 0) and
exactly 30 when it is negative, because the trend and noise terms are both
multiplied by a progress factor that is 0 at index 0; the starting
baseline therefore jumps from 10 to 30 as `priceChange` crosses below
zero. -/
theorem generateChartData_first_point (noise : ℕ → ℚ) (t : Token) :
    (generateChartData noise t).head? = some (if t.priceChange < 0 then 30 else 10) := by
  simp only [generateChartData, ge_iff_le]
  have hr : List.range 11 = [0, 1, 2, 3, 4, 5, 6, 7, 8, 9, 10] := rfl
  rcases lt_or_le t.priceChange 0 with hlt | hle
  · rw [if_neg (not_le.mpr hlt), if_pos hlt, hr]
    simp only [List.map_cons, List.head?_cons, Option.some.injEq]
    push_cast
    ring
  · rw [if_pos hle, if_neg (not_lt.mpr hle), hr]
    simp only [List.map_cons, List.head?_cons, Option.some.injEq]
    push_cast
    ring

/-- `generateXMentions` from src/index.js lines 246-251.  `b` is the draw
`Math.floor(Math.random() * 200)`; the JS truthiness tests
`token.marketCap ?` and `token.volume ?` are false exactly at 0 in this
model. -/
def generateXMentions (b : ℕ) (token : Token) : ℤ :=
  let baseMentions : ℚ := 50 + (b : ℚ)
  let marketCapMultiplier : ℚ :=
    if token.marketCap ≠ 0 then min (token.marketCap / 50000) 5 else 1
  let volumeMultiplier : ℚ :=
    if token.volume ≠ 0 then min (token.volume / 5000) 5 else 1
  ⌊baseMentions * (marketCapMultiplier + volumeMultiplier) / 2⌋

/-- One trading pair of the market-data provider's JSON body, holding the
fields the code reads; `none` models a missing (`undefined`) field, and a
numeric field carries the value `parseFloat` would produce on it. -/
structure DexPair where
  baseTokenName : Option String
  baseTokenSymbol : Option String
  baseTokenAddress : Option String
  fdv : Option ℚ
  volumeH24 : Option ℚ
  liquidityUsd : Option ℚ
  priceUsd : Option ℚ
  priceChangeH24 : Option ℚ
deriving DecidableEq

/-- A parsed provider body; a body whose `pairs` key is missing behaves
like an empty list under `dexData.pairs?.[0] || \x7b\x7d`. -/
structure DexData where
  pairs : List DexPair
deriving DecidableEq

/-- Outcome of one `fetch` + `.json()` round trip against the market-data
provider: the fetch may reject, or deliver a response with an HTTP success
flag and a body that either parses as JSON or does not (`none`). -/
inductive FetchResult where
  | networkError : FetchResult
  | response (ok : Bool) (body : Option DexData) : FetchResult
deriving DecidableEq

/-- The random draws consumed by one enrichment of one token. -/
structure Rand where
  score : ℤ
  mentions : ℕ
  holders : ℕ
  noise : ℕ → ℚ

/-- The JS string fallback `x || d` where `x` may be `undefined` and the
empty string is falsy. -/
def jsOrString (x : Option String) (d : String) : String :=
  match x with
  | some s => if s = "" then d else s
  | none => d

/-- `updateTokenData` from src/index.js lines 202-226.  The code never
inspects the HTTP status of the response (there is no `response.ok` check
in this function); `FetchResult.response` records the status flag only so
that statements can speak about non-success responses.  An exception can
only arise from `fetch` itself or from `.json()` on an unparseable body;
in both cases the catch block returns the token untouched.  Otherwise the
token's fields are overwritten from the first pair (defaults when absent),
`holders` is redrawn, and the derived fields are recomputed in source
order. -/
def updateTokenData (rand : Rand) (resp : FetchResult) (token : Token) : Token :=
  match resp with
  | .networkError => token
  | .response _ none => token
  | .response _ (some dexData) =>
    let pair := dexData.pairs.head?
    let t1 : Token := { token with
      name := jsOrString (pair.bind DexPair.baseTokenName) token.name
      symbol := jsOrString (pair.bind DexPair.baseTokenSymbol) ""
      marketCap := (pair.bind DexPair.fdv).getD 0
      volume := (pair.bind DexPair.volumeH24).getD 0
      liquidity := (pair.bind DexPair.liquidityUsd).getD 0
      price := (pair.bind DexPair.priceUsd).getD 0
      priceChange := (pair.bind DexPair.priceChangeH24).getD 0
      holders := rand.holders + 50 }
    let t2 : Token := { t1 with hypeScore := calculateHypeScore rand.score t1 }
    let t3 : Token := { t2 with xMentions := generateXMentions rand.mentions t2 }
    { t3 with chartData := generateChartData rand.noise t3 }

/-- Deterministic draws for concrete evaluations. -/
def zeroRand : Rand := { score := 0, mentions := 0, holders := 0, noise := fun _ => 0 }

/-- C2, counterexample: a non-success HTTP response whose body parses as
JSON with no pairs (the typical provider error body) does not leave the
token unchanged — the code never checks the status, so the token is fully
re-enriched with default market fields and fresh derived fields (here the
redrawn `holders` already differs). -/
theorem updateTokenData_error_cex :
    updateTokenData zeroRand (FetchResult.response false (some ⟨[]⟩)) blankToken
      ≠ blankToken := by
  intro h
  exact absurd (congrArg Token.holders h) (by decide)

/-- C2, amended: `updateTokenData` returns its input token with every field
unchanged exactly on the error paths that throw before any assignment —
a network error, or a body that fails JSON parsing.  A non-success HTTP
status is not detected: if the error body parses as JSON the token is
re-enriched as on success, with default values for missing fields. -/
theorem updateTokenData_error_id (rand : Rand) (t : Token) (resp : FetchResult)
    (h : resp = FetchResult.networkError ∨ ∃ ok, resp = FetchResult.response ok none) :
    updateTokenData rand resp t = t := by
  rcases h with rfl | ⟨ok, rfl⟩ <;> rfl

theorem updateTokenData_error_id_witness :
    updateTokenData zeroRand FetchResult.networkError blankToken = blankToken :=
  updateTokenData_error_id zeroRand blankToken FetchResult.networkError (Or.inl rfl)

/-- The comparator `(a, b) => b.hypeScore - a.hypeScore` of `rankTokens`
as an ordering relation: `a` may precede `b` when `b`'s score is at most
`a`'s. -/
def hypeGE (a b : Token) : Prop := b.hypeScore ≤ a.hypeScore

instance : DecidableRel hypeGE := fun a b => Int.decLe b.hypeScore a.hypeScore

instance : IsTotal Token hypeGE := ⟨fun a b => le_total b.hypeScore a.hypeScore⟩

instance : IsTrans Token hypeGE := ⟨fun _ _ _ h1 h2 => le_trans h2 h1⟩

/-- `rankTokens` from src/index.js lines 278-280:
`tokens.sort((a, b) => b.hypeScore - a.hypeScore)`.  `Array.prototype.sort`
is a stable sort, so it is modelled by the stable insertion sort over the
comparator's ordering (any two stable sorts of the same list under the
same total preorder agree). -/
def rankTokens (tokens : List Token) : List Token :=
  tokens.insertionSort hypeGE

lemma filter_orderedInsert {α : Type} (r : α → α → Prop) [DecidableRel r] (p : α → Bool)
    (a : α) (l : List α) (h : ∀ b, p b = true → r a b) :
    (l.orderedInsert r a).filter p = if p a then a :: l.filter p else l.filter p := by
  induction l with
  | nil => cases hpa : p a <;> simp [List.orderedInsert, hpa]
  | cons b l ih =>
    by_cases hab : r a b
    · rw [List.orderedInsert, if_pos hab]
      cases hpa : p a <;> simp [List.filter_cons, hpa]
    · have hpb : p b = false := by
        cases hpb : p b
        · rfl
        · exact absurd (h b hpb) hab
      rw [List.orderedInsert, if_neg hab]
      simp only [List.filter_cons, hpb, Bool.false_eq_true, if_false, ih]

lemma filter_orderedInsert_of_neg {α : Type} (r : α → α → Prop) [DecidableRel r]
    (p : α → Bool) (a : α) (l : List α) (ha : p a = false) :
    (l.orderedInsert r a).filter p = l.filter p := by
  induction l with
  | nil => simp [List.orderedInsert, ha]
  | cons b l ih =>
    by_cases hab : r a b
    · rw [List.orderedInsert, if_pos hab]
      simp only [List.filter_cons, ha, Bool.false_eq_true, if_false]
    · rw [List.orderedInsert, if_neg hab]
      simp only [List.filter_cons, ih]

/-- Stability of `rankTokens`: within each hype-score class, the sorted
list keeps the input's relative order (so it keeps exactly the input's
subsequence of that score). -/
lemma filter_rankTokens (s : ℤ) (l : List Token) :
    (rankTokens l).filter (fun t => t.hypeScore == s)
      = l.filter (fun t => t.hypeScore == s) := by
  unfold rankTokens
  induction l with
  | nil => rfl
  | cons a l ih =>
    rw [List.insertionSort]
    by_cases hpa : (a.hypeScore == s) = true
    · rw [filter_orderedInsert hypeGE _ a _ ?_, if_pos hpa, ih, List.filter_cons, if_pos hpa]
      intro b hb
      have hbs : b.hypeScore = s := by simpa using hb
      have has : a.hypeScore = s := by simpa using hpa
      exact le_of_eq (hbs.trans has.symm)
    · have hpa' : (a.hypeScore == s) = false := by simpa using hpa
      rw [filter_orderedInsert_of_neg hypeGE _ a _ hpa', ih]
      simp only [List.filter_cons, hpa', Bool.false_eq_true, if_false]

/-- A bare token with the given name and a pinned hype score. -/
def scoredToken (nm : String) (s : ℤ) : Token :=
  { blankToken with name := nm, hypeScore := s }

/-- C5: ranking then truncating to 5 yields at most 5 records, ordered by
descending `hypeScore`, with ties kept in the input's relative order
(stable sort); in particular five tokens with the distinct scores
90, 80, 70, 60, 50 come out exactly in descending score order. -/
theorem rankTokens_top5 (tokens : List Token) :
    ((rankTokens tokens).take 5).length ≤ 5 ∧
    ((rankTokens tokens).take 5).Pairwise hypeGE ∧
    (∀ s : ℤ, (rankTokens tokens).filter (fun t => t.hypeScore == s)
      = tokens.filter (fun t => t.hypeScore == s)) ∧
    (rankTokens [scoredToken "c" 70, scoredToken "a" 90, scoredToken "e" 50,
        scoredToken "b" 80, scoredToken "d" 60]).take 5
      = [scoredToken "a" 90, scoredToken "b" 80, scoredToken "c" 70,
        scoredToken "d" 60, scoredToken "e" 50] := by
  refine ⟨?_, ?_, fun s => filter_rankTokens s tokens, ?_⟩
  · rw [List.length_take]
    exact min_le_left _ _
  · exact List.Pairwise.sublist (List.take_sublist _ _)
      (List.sorted_insertionSort hypeGE tokens)
  · decide

/-- One token descriptor from the primary discovery source (Solscan):
`created_at` carries the epoch-millisecond value of
`new Date(t.created_at).getTime()`, with `none` for an unparseable date
string (`NaN`). -/
structure SolToken where
  name : Option String
  address : String
  created_at : Option ℤ
deriving DecidableEq

/-- The freshness filter of `loadTokens` (src/index.js line 134):
`Date.now() - new Date(t.created_at).getTime() < 12 * 3600 * 1000`.
When the timestamp is `NaN` the comparison is false, so the token is
dropped. -/
def solscanFresh (now : ℤ) (t : SolToken) : Bool :=
  match t.created_at with
  | none => false
  | some ts => decide (now - ts < 12 * 3600 * 1000)

/-- The age display string
`Math.floor((Date.now() - created) / 3600000) + "h"`. -/
def ageString (now ts : ℤ) : String :=
  toString ((now - ts).fdiv 3600000) ++ "h"

/-- The mapping step of `loadTokens` (src/index.js lines 135-143): a bare
token record from a primary-source descriptor.  A `NaN` timestamp (never
produced after the filter) yields the JS string "NaNh". -/
def solToToken (now : ℤ) (t : SolToken) : Token :=
  { name := jsOrString t.name "Unknown"
    symbol := ""
    address := t.address
    age := match t.created_at with
      | some ts => ageString now ts
      | none => "NaNh"
    marketCap := 0, volume := 0, liquidity := 0, price := 0, priceChange := 0
    holders := 0, hypeScore := 0, xMentions := 0, chartData := [], sponsored := false }

/-- One trading pair from the secondary discovery source (the DexScreener
search endpoint), with the fields the fallback branch reads. -/
structure SearchPair where
  chainId : String
  pairCreatedAt : Option ℤ
  baseTokenName : Option String
  baseTokenSymbol : Option String
  baseTokenAddress : Option String
  fdv : Option ℚ
  volumeH24 : Option ℚ
  liquidityUsd : Option ℚ
  priceUsd : Option ℚ
  priceChangeH24 : Option ℚ
deriving DecidableEq

/-- The fallback filter (src/index.js lines 162-168):
`pair.chainId === "solana" && pair.pairCreatedAt > twelveHoursAgo`, with
the surrounding try/catch returning false; a missing `pairCreatedAt`
makes the comparison false. -/
def searchFresh (twelveHoursAgo : ℤ) (p : SearchPair) : Bool :=
  p.chainId == "solana" &&
    (match p.pairCreatedAt with
     | some ts => decide (ts > twelveHoursAgo)
     | none => false)

/-- The fallback mapping step (src/index.js lines 169-182). -/
def searchPairToToken (now : ℤ) (holdersDraw : ℕ) (p : SearchPair) : Token :=
  { name := jsOrString p.baseTokenName (jsOrString p.baseTokenSymbol "Unknown")
    symbol := jsOrString p.baseTokenSymbol ""
    address := jsOrString p.baseTokenAddress ""
    age := match p.pairCreatedAt with
      | some ts => ageString now ts
      | none => "NaNh"
    marketCap := p.fdv.getD 0
    volume := p.volumeH24.getD 0
    liquidity := p.liquidityUsd.getD 0
    price := p.priceUsd.getD 0
    priceChange := p.priceChangeH24.getD 0
    holders := holdersDraw + 50
    hypeScore := 0, xMentions := 0, chartData := [], sponsored := false }

/-- The `forEach` of the fallback branch (src/index.js lines 188-192):
recompute `hypeScore`, `xMentions` and `chartData` in place, in source
order. -/
def scoreToken (rand : Rand) (t : Token) : Token :=
  let t1 : Token := { t with hypeScore := calculateHypeScore rand.score t }
  let t2 : Token := { t1 with xMentions := generateXMentions rand.mentions t1 }
  { t2 with chartData := generateChartData rand.noise t2 }

/-- The token list produced by the fallback branch of `loadTokens`
(src/index.js lines 158-192): filter to fresh solana pairs, map to
records, drop unresolved names and empty addresses, then score.  `env i`
supplies the random draws consumed for the i-th element of each
traversal. -/
def fallbackTokens (now : ℤ) (env : ℕ → Rand) (pairs : List SearchPair) : List Token :=
  let twelveHoursAgo := now - 12 * 60 * 60 * 1000
  let fresh := pairs.filter (searchFresh twelveHoursAgo)
  let mapped := fresh.mapIdx (fun i p => searchPairToToken now (env i).holders p)
  let named := mapped.filter (fun tok => tok.name != "Unknown" && tok.address != "")
  named.mapIdx (fun i t => scoreToken (env i) t)

/-- The token list produced by the primary branch of `loadTokens`
(src/index.js lines 133-145): freshness filter, mapping, then one
enrichment per token (`Promise.all(newTokens.map(updateTokenData))`);
`resp i` is the outcome of the i-th token's provider call. -/
def primaryTokens (now : ℤ) (env : ℕ → Rand) (resp : ℕ → FetchResult)
    (toks : List SolToken) : List Token :=
  let newTokens := (toks.filter (solscanFresh now)).map (solToToken now)
  newTokens.mapIdx (fun i t => updateTokenData (env i) (resp i) t)

/-- The two cache keys `loadTokens` writes: the bounded new-tokens list
and the featured-tokens list (`none` when the key does not exist). -/
structure Cache where
  newTokens : List Token
  featured : Option (List Token)
deriving DecidableEq

/-- `loadTokens` from src/index.js lines 127-200 as a transformer of the
cache state.  `primary` is the parsed batch of the primary source
(`none` when the fetch rejects, the status is non-success, or the body
does not parse -- all of which throw before any cache write), and
`secondary` likewise for the fallback source.  On the primary path the
ranked, truncated list replaces `newTokens` and the featured key is
created empty when absent; on the fallback path only `newTokens` is
written; when both sources fail the catch block only logs, leaving the
cache untouched. -/
def loadTokens (now : ℤ) (env : ℕ → Rand) (resp : ℕ → FetchResult)
    (primary : Option (List SolToken)) (secondary : Option (List SearchPair))
    (c : Cache) : Cache :=
  match primary with
  | some toks =>
    { newTokens := (rankTokens (primaryTokens now env resp toks)).take 5
      featured := some (c.featured.getD []) }
  | none =>
    match secondary with
    | none => c
    | some pairs =>
      { c with newTokens := (rankTokens (fallbackTokens now env pairs)).take 5 }

/-- C4: when the primary discovery source fails, `loadTokens` falls back to
the secondary source and, on its success, persists exactly the ranked
top-5 of the fallback pipeline (a list of at most 5 tokens in descending
hype-score order); when both sources fail the cache -- in particular the
previously stored `newTokens` list -- is left exactly equal to its prior
value. -/
theorem loadTokens_fallback (now : ℤ) (env : ℕ → Rand) (resp : ℕ → FetchResult)
    (c : Cache) (pairs : List SearchPair) :
    ((loadTokens now env resp none (some pairs) c).newTokens
        = (rankTokens (fallbackTokens now env pairs)).take 5 ∧
      (loadTokens now env resp none (some pairs) c).newTokens.length ≤ 5 ∧
      (loadTokens now env resp none (some pairs) c).newTokens.Pairwise hypeGE) ∧
    loadTokens now env resp none none c = c := by
  refine ⟨⟨rfl, ?_, ?_⟩, rfl⟩
  · show ((rankTokens (fallbackTokens now env pairs)).take 5).length ≤ 5
    rw [List.length_take]
    exact min_le_left _ _
  · show ((rankTokens (fallbackTokens now env pairs)).take 5).Pairwise hypeGE
    exact List.Pairwise.sublist (List.take_sublist _ _)
      (List.sorted_insertionSort hypeGE (fallbackTokens now env pairs))

/-- A descriptor whose creation timestamp is 13 hours before `now`. -/
def staleSolToken (now : ℤ) : SolToken :=
  { name := none, address := "x", created_at := some (now - 13 * 3600 * 1000) }

/-- A descriptor whose creation timestamp is 11 hours before `now`. -/
def recentSolToken (now : ℤ) : SolToken :=
  { name := none, address := "x", created_at := some (now - 11 * 3600 * 1000) }

/-- C7: the discovery batch filter accepts a descriptor exactly when its
creation timestamp parsed and lies strictly less than 12 hours before
`now` (fail-closed on unparseable timestamps); in particular a token
created 13 hours ago is excluded and one created 11 hours ago is
included. -/
theorem solscanFresh_iff (now : ℤ) (t : SolToken) :
    (solscanFresh now t = true ↔
      ∃ ts, t.created_at = some ts ∧ now - ts < 12 * 3600 * 1000) ∧
    solscanFresh now (staleSolToken now) = false ∧
    solscanFresh now (recentSolToken now) = true ∧
    (∀ t2 : SolToken, t2.created_at = none → solscanFresh now t2 = false) := by
  refine ⟨?_, ?_, ?_, ?_⟩
  · unfold solscanFresh
    cases h : t.created_at with
    | none => simp
    | some ts => simp [h]
  · unfold solscanFresh staleSolToken
    simp only [decide_eq_false_iff_not]
    omega
  · unfold solscanFresh recentSolToken
    simp only [decide_eq_true_eq]
    omega
  · intro t2 h2
    unfold solscanFresh
    rw [h2]

/-- A descriptor created at the epoch. -/
def epochSolToken : SolToken := { name := none, address := "x", created_at := some 0 }

theorem solscanFresh_iff_witness :
    solscanFresh 3600000 epochSolToken = true :=
  (solscanFresh_iff 3600000 epochSolToken).1.mpr ⟨0, rfl, by norm_num⟩

/-- `updateTokenData` of the WebSocket variant (src/unnamed/part_000 lines
70-89): like the main variant but only `name`, `marketCap`, `volume`,
`hypeScore` and `xMentions` are overwritten, and the same catch block
returns the token untouched when the fetch rejects or the body does not
parse. -/
def updateTokenDataLite (rand : Rand) (resp : FetchResult) (token : Token) : Token :=
  match resp with
  | .networkError => token
  | .response _ none => token
  | .response _ (some dexData) =>
    let pair := dexData.pairs.head?
    let t1 : Token := { token with
      name := jsOrString (pair.bind DexPair.baseTokenName) token.name
      marketCap := (pair.bind DexPair.fdv).getD 0
      volume := (pair.bind DexPair.volumeH24).getD 0 }
    let t2 : Token := { t1 with hypeScore := calculateHypeScore rand.score t1 }
    { t2 with xMentions := generateXMentions rand.mentions t2 }

/-- One parsed WebSocket message: the event type and the mint payload the
handler reads (`timestamp` is `none` when the date does not parse). -/
structure WsEvent where
  type : String
  name : Option String
  mint : String
  timestamp : Option ℤ
deriving DecidableEq

/-- The state the live-ingestion handler can touch: the per-address record
store (`allTokens:*` hashes, as an association list), the cached
new-tokens list, and the stream of notifications published so far. -/
structure LiveState where
  store : List (String × Token)
  newTokens : List Token
  notifications : List Token
deriving DecidableEq

/-- The WebSocket message handler of `connectToHelius`
(src/unnamed/part_000 lines 132-166).  `msg` is the parsed message
(`none` when `JSON.parse` throws, which the catch block turns into a
no-op).  Non-mint events and events at least 12 hours old return early;
an address already present in the store returns early before any
enrichment; otherwise the token is enriched (its record stored when the
provider body parsed), pushed onto the ranked truncated list, and a
notification is published. -/
def handleMessage (now : ℤ) (rand : Rand) (resp : FetchResult)
    (msg : Option WsEvent) (s : LiveState) : LiveState :=
  match msg with
  | none => s
  | some ev =>
    if ev.type ≠ "TOKEN_MINT" then s
    else
      let ageMs : Option ℤ := ev.timestamp.map (fun ts => now - ts)
      if (match ageMs with
          | some a => decide (a ≥ 12 * 3600 * 1000)
          | none => false) then s
      else
        let token : Token :=
          { name := jsOrString ev.name "Unknown"
            symbol := ""
            address := ev.mint
            age := match ev.timestamp with
              | some ts => ageString now ts
              | none => "NaNh"
            marketCap := 0, volume := 0, liquidity := 0, price := 0, priceChange := 0
            holders := 0, hypeScore := 0, xMentions := 0, chartData := [], sponsored := false }
        if (s.store.lookup token.address).isSome then s
        else
          let token := updateTokenDataLite rand resp token
          let store := match resp with
            | .response _ (some _) => (token.address, token) :: s.store
            | _ => s.store
          let newTokens := (rankTokens (token :: s.newTokens)).take 5
          { store := store, newTokens := newTokens,
            notifications := s.notifications ++ [token] }

/-- C8: an incoming live mint event whose address already exists in the
per-address store leaves the whole state unchanged -- no enrichment, the
cached new-tokens list and the store keep their values, and no
notification is published. -/
theorem handleMessage_dedup (now : ℤ) (rand : Rand) (resp : FetchResult)
    (ev : WsEvent) (s : LiveState) (h : (s.store.lookup ev.mint).isSome) :
    handleMessage now rand resp (some ev) s = s := by
  simp only [handleMessage]
  split_ifs <;> rfl

/-- A mint event for an address already stored. -/
def dedupEvent : WsEvent :=
  { type := "TOKEN_MINT", name := none, mint := "addr", timestamp := some 0 }

/-- A live state whose store already holds that address. -/
def dedupState : LiveState :=
  { store := [("addr", blankToken)], newTokens := [], notifications := [] }

theorem handleMessage_dedup_witness :
    handleMessage 0 zeroRand FetchResult.networkError (some dedupEvent) dedupState
      = dedupState :=
  handleMessage_dedup 0 zeroRand FetchResult.networkError dedupEvent dedupState (by decide)

end HypeScreener
